import Mathlib

/-
  Verification development for the mft repository (Ansible sftp modules:
  src/plugins/modules/sftp_get.py, sftp_find.py, sftp_fetch.py).

  The modules are shallowly embedded: the local filesystem is an association
  list from path strings to nodes, the remote directory is a list of entries
  as returned by pysftp listdir_attr, timestamps are whole seconds (Nat, the
  granularity the SFTP protocol conveys), and fallible remote operations
  return Except.
-/

/-- A node of the local filesystem: a regular file (with its mtime in whole
seconds and its byte content) or a directory. -/
inductive LNode where
  | file (mtime : Nat) (content : String)
  | dir
deriving DecidableEq

/-- The local filesystem: association list from absolute path to node.
The first binding for a path is the authoritative one. -/
def LocalFS := List (String × LNode)

instance : DecidableEq LocalFS := by
  unfold LocalFS
  infer_instance

/-- Look a path up in the local filesystem. -/
def lookupFS (lfs : LocalFS) (p : String) : Option LNode :=
  (lfs.find? (fun pn => pn.1 == p)).map (fun pn => pn.2)

/-- os.path.isfile: a regular file exists at the path. -/
def isfile (lfs : LocalFS) (p : String) : Bool :=
  match lookupFS lfs p with
  | some (.file _ _) => true
  | _ => false

/-- os.stat(p).st_mtime for a regular file at p (none when absent or a dir). -/
def localMtime (lfs : LocalFS) (p : String) : Option Nat :=
  match lookupFS lfs p with
  | some (.file m _) => some m
  | _ => none

/-- Write (create or overwrite) a regular file at a path. -/
def setFile (lfs : LocalFS) (p : String) (m : Nat) (c : String) : LocalFS :=
  (p, LNode.file m c) :: lfs.filter (fun pn => pn.1 != p)

/-- One entry of a remote directory listing (pysftp listdir_attr element):
its filename (base name for the batch modules, full path for sftp_fetch's
single target), its st_mtime in whole seconds, its content, and whether it
is a directory. -/
structure RemoteEntry where
  filename : String
  st_mtime : Nat
  content : String
  isDir : Bool
deriving DecidableEq

/-- sftp.stat(name): find the remote entry with the given name. -/
def statRemote (rfs : List RemoteEntry) (name : String) : Option RemoteEntry :=
  rfs.find? (fun e => e.filename == name)

/-- The IOError-kind failures the embedded remote operations can raise. -/
inductive Err where
  | noSuchFile
  | getOnDirectory
  | sessionClosed
  | renameNoDir
  | renameTargetExists
deriving DecidableEq

/- ---------------------------------------------------------------------
   fnmatch.fnmatch as used on POSIX (os.path.normcase is the identity, so
   matching is case-sensitive): shell-style glob with *, ?, [seq], [!seq],
   matched against the whole base name.
   --------------------------------------------------------------------- -/

/-- Membership of a character in a glob character-class body ([seq] between
the brackets), with ranges a-b; a dash first or last is a literal. -/
def inSet (c : Char) : List Char → Bool
  | a :: '-' :: b :: rest => (a.toNat ≤ c.toNat && c.toNat ≤ b.toNat) || inSet c rest
  | a :: rest => (a == c) || inSet c rest
  | [] => false

/-- Scan for the closing bracket of a character class; returns the class
body and the rest of the pattern, or none when the bracket is unclosed. -/
def scanClose (acc : List Char) : List Char → Option (List Char × List Char)
  | [] => none
  | ']' :: r => some (acc.reverse, r)
  | x :: r => scanClose (x :: acc) r

/-- Parse a character class directly after its opening bracket: an optional
leading !, then the body ended by the first ] that is not the first body
character (fnmatch.translate semantics). -/
def parseCls (cs : List Char) : Option (Bool × List Char × List Char) :=
  match cs with
  | '!' :: rest =>
    match rest with
    | [] => none
    | c :: t => (scanClose [c] t).map (fun p => (true, p.1, p.2))
  | _ =>
    match cs with
    | [] => none
    | c :: t => (scanClose [c] t).map (fun p => (false, p.1, p.2))

/-- A compiled glob token. -/
inductive GTok where
  | star
  | qmark
  | lit (c : Char)
  | cls (neg : Bool) (set : List Char)
deriving DecidableEq

/-- Compile a glob pattern into tokens; the fuel starts at the pattern
length and every step consumes at least one character, so it never runs
out. An unclosed bracket is a literal bracket (fnmatch.translate). -/
def compileGlobF : Nat → List Char → List GTok
  | 0, _ => []
  | _ + 1, [] => []
  | fuel + 1, '*' :: r => GTok.star :: compileGlobF fuel r
  | fuel + 1, '?' :: r => GTok.qmark :: compileGlobF fuel r
  | fuel + 1, '[' :: r =>
    match parseCls r with
    | some (n, s, r2) => GTok.cls n s :: compileGlobF fuel r2
    | none => GTok.lit '[' :: compileGlobF fuel r
  | fuel + 1, c :: r => GTok.lit c :: compileGlobF fuel r

/-- Compile a glob pattern. -/
def compileGlob (p : List Char) : List GTok :=
  compileGlobF p.length p

/-- Match compiled glob tokens against a character list (anchored at both
ends, as fnmatch's regex carries a terminal anchor). -/
def matchToks : List GTok → List Char → Bool
  | [], cs => cs.isEmpty
  | GTok.star :: ps, cs => cs.tails.any (fun t => matchToks ps t)
  | GTok.qmark :: ps, cs =>
    match cs with
    | [] => false
    | _ :: cs2 => matchToks ps cs2
  | GTok.lit a :: ps, cs =>
    match cs with
    | [] => false
    | c :: cs2 => (a == c) && matchToks ps cs2
  | GTok.cls n s :: ps, cs =>
    match cs with
    | [] => false
    | c :: cs2 => (inSet c s != n) && matchToks ps cs2

/-- fnmatch.fnmatch(name, pat) on POSIX. -/
def fnmatch (name pat : String) : Bool :=
  matchToks (compileGlob pat.toList) name.toList

/- ---------------------------------------------------------------------
   Remote operations (pysftp on top of paramiko).
   --------------------------------------------------------------------- -/

/-- sftp.get(name, lf, preserve_mtime=True): copy the remote file's bytes to
the local path and stamp the local copy's mtime with the remote st_mtime.
Raises when the remote name is missing or names a directory. -/
def sftp_get_op (rfs : List RemoteEntry) (name : String) (lfs : LocalFS) (lf : String) :
    Except Err LocalFS :=
  match statRemote rfs name with
  | none => Except.error Err.noSuchFile
  | some e =>
    if e.isDir then Except.error Err.getOnDirectory
    else Except.ok (setFile lfs lf e.st_mtime e.content)

/-- sftp.remove(name): delete the remote file. -/
def sftp_remove (rfs : List RemoteEntry) (name : String) : Except Err (List RemoteEntry) :=
  match statRemote rfs name with
  | none => Except.error Err.noSuchFile
  | some _ => Except.ok (rfs.eraseP (fun e => e.filename == name))

/-- Does a directory entry exist at the given remote path. -/
def dirExists (rfs : List RemoteEntry) (p : String) : Bool :=
  (rfs.find? (fun e => e.filename == p && e.isDir)).isSome

/-- os.path.split: split a path at its last slash; trailing slashes are
stripped from the head unless the head is all slashes. -/
def splitPath (s : String) : String × String :=
  let cs := s.toList
  let tl := (cs.reverse.takeWhile (fun c => c != '/')).reverse
  let headAll := cs.take (cs.length - tl.length)
  let headStripped := (headAll.reverse.dropWhile (fun c => c = '/')).reverse
  let hd := if headStripped.isEmpty && !headAll.isEmpty then headAll else headStripped
  (String.mk hd, String.mk tl)

/-- os.path.basename. -/
def basenameStr (s : String) : String :=
  (splitPath s).2

/-- sftp.rename(src, dst): fails when src is missing, when the destination's
parent directory does not exist, or when the destination already exists. -/
def sftp_rename (rfs : List RemoteEntry) (src dst : String) : Except Err (List RemoteEntry) :=
  match statRemote rfs src with
  | none => Except.error Err.noSuchFile
  | some e =>
    if (statRemote rfs dst).isSome then Except.error Err.renameTargetExists
    else if dirExists rfs (splitPath dst).1 then
      Except.ok ((rfs.eraseP (fun x => x.filename == src)) ++ [{ e with filename := dst }])
    else Except.error Err.renameNoDir

/- ---------------------------------------------------------------------
   sftp_get.py — sftp_get_files (lines 100-143) and run_module.
   --------------------------------------------------------------------- -/

/-- sftp_get.py line 124: the skip condition of one candidate. The local
isfile test runs first; only if a regular local file exists is the remote
file stat-ed and the two st_mtime values compared (whole seconds). -/
def skipCheck (rfs : List RemoteEntry) (lfs : LocalFS) (name lf : String) : Except Err Bool :=
  if isfile lfs lf then
    match statRemote rfs name with
    | none => Except.error Err.noSuchFile
    | some e => Except.ok (localMtime lfs lf == some e.st_mtime)
  else Except.ok false

/-- What happened to one listing entry in the batch loop. -/
inductive FileOutcome where
  | notCandidate
  | skippedFile
  | transferred
deriving DecidableEq

/-- The body of the batch loop (sftp_get.py lines 118-133) for one listing
entry: pattern filter, skip check, transfer with preserve_mtime, optional
remote delete. Errors are not caught (any raise aborts the whole run). -/
def processFile (pat lp : String) (del : Bool) (e : RemoteEntry)
    (rfs : List RemoteEntry) (lfs : LocalFS) :
    Except Err (FileOutcome × List RemoteEntry × LocalFS) :=
  if fnmatch e.filename pat then
    match skipCheck rfs lfs e.filename (lp ++ e.filename) with
    | Except.error er => Except.error er
    | Except.ok true => Except.ok (FileOutcome.skippedFile, rfs, lfs)
    | Except.ok false =>
      match sftp_get_op rfs e.filename lfs (lp ++ e.filename) with
      | Except.error er => Except.error er
      | Except.ok lfs2 =>
        match (if del then sftp_remove rfs e.filename else Except.ok rfs) with
        | Except.error er => Except.error er
        | Except.ok rfs2 => Except.ok (FileOutcome.transferred, rfs2, lfs2)
  else Except.ok (FileOutcome.notCandidate, rfs, lfs)

/-- The aggregate state of one batch run: the result lists of
sftp_get_files plus the final remote and local filesystems. -/
structure LoopOut where
  remote_files : List String
  files_proc : List String
  files_skipped : List String
  changed : Bool
  rfs : List RemoteEntry
  lfs : LocalFS
deriving DecidableEq

/-- The batch loop of sftp_get.py (lines 118-133) over the listing
snapshot, threading the live remote and local filesystems. -/
def getLoop (pat lp : String) (del : Bool) :
    List RemoteEntry → List RemoteEntry → LocalFS → Except Err LoopOut
  | [], rfs, lfs => Except.ok ⟨[], [], [], false, rfs, lfs⟩
  | e :: rest, rfs, lfs =>
    match processFile pat lp del e rfs lfs with
    | Except.error er => Except.error er
    | Except.ok (oc, rfs1, lfs1) =>
      match getLoop pat lp del rest rfs1 lfs1 with
      | Except.error er => Except.error er
      | Except.ok o =>
        match oc with
        | FileOutcome.notCandidate => Except.ok o
        | FileOutcome.skippedFile =>
          Except.ok ⟨e.filename :: o.remote_files, o.files_proc,
            e.filename :: o.files_skipped, o.changed, o.rfs, o.lfs⟩
        | FileOutcome.transferred =>
          Except.ok ⟨e.filename :: o.remote_files, e.filename :: o.files_proc,
            o.files_skipped, true, o.rfs, o.lfs⟩

/-- The parameters of one sftp_get run (path, pattern, normalized
local_path ending in a separator, delete flag). -/
structure GetParams where
  path : String
  pattern : String
  local_path : String
  delete : Bool
deriving DecidableEq

/-- The result record sftp_get_files fills in (lines 135-141). -/
structure GetResult where
  changed : Bool
  pattern : String
  remote_files : List String
  processed_count : Nat
  processed : List String
  skipped : List String
  remote_path : String
  local_path : String
deriving DecidableEq

/-- sftp_get.py sftp_get_files: list the remote directory, run the batch
loop, fill the result record. -/
def sftp_get_files (p : GetParams) (rfs : List RemoteEntry) (lfs : LocalFS) :
    Except Err (GetResult × List RemoteEntry × LocalFS) :=
  match getLoop p.pattern p.local_path p.delete rfs rfs lfs with
  | Except.error er => Except.error er
  | Except.ok o =>
    Except.ok (⟨o.changed, p.pattern, o.remote_files, o.files_proc.length,
      o.files_proc, o.files_skipped, p.path, p.local_path⟩, o.rfs, o.lfs)

/-- The initial result dict of sftp_get.py run_module (lines 158-166):
empty strings and lists and changed=False (the absent processed key and the
empty-string placeholders are modelled as empty list / zero). -/
def initialGetResult : GetResult :=
  ⟨false, "", [], 0, [], [], "", ""⟩

/-- sftp_get.py run_module: in check mode (line 176-177) it exits at once
with the initial result, touching neither filesystem; otherwise it runs
sftp_get_files. -/
def get_run_module (checkMode : Bool) (p : GetParams) (rfs : List RemoteEntry) (lfs : LocalFS) :
    Except Err (GetResult × List RemoteEntry × LocalFS) :=
  if checkMode then Except.ok (initialGetResult, rfs, lfs)
  else sftp_get_files p rfs lfs

/- ---------------------------------------------------------------------
   sftp_find.py — sftp_find_files (lines 80-113) and run_module.
   --------------------------------------------------------------------- -/

/-- The loop of sftp_find_files (lines 103-106): collect matching names and
set changed=True on every match. -/
def findLoop (pat : String) : List RemoteEntry → List String × Bool
  | [] => ([], false)
  | e :: rest =>
    let o := findLoop pat rest
    if fnmatch e.filename pat then (e.filename :: o.1, true) else o

/-- The result record of sftp_find_files (lines 108-111). -/
structure FindResult where
  changed : Bool
  pattern : String
  remote_path : String
  files_found : List String
deriving DecidableEq

/-- sftp_find.py sftp_find_files over a remote listing. -/
def sftp_find_files (path pat : String) (rfs : List RemoteEntry) : FindResult :=
  let o := findLoop pat rfs
  ⟨o.2, pat, path, o.1⟩

/-- The initial result dict of sftp_find.py run_module (lines 125-130). -/
def initialFindResult : FindResult :=
  ⟨false, "", "", []⟩

/-- sftp_find.py run_module: in check mode (lines 140-141) it exits with
the initial result; otherwise it runs sftp_find_files. -/
def find_run_module (checkMode : Bool) (path pat : String) (rfs : List RemoteEntry) : FindResult :=
  if checkMode then initialFindResult else sftp_find_files path pat rfs

/- ---------------------------------------------------------------------
   sftp_fetch.py — main (lines 83-136).
   --------------------------------------------------------------------- -/

/-- The parameters of one sftp_fetch run (src path, normalized local_path
ending in a separator, archive flag). -/
structure FetchParams where
  src : String
  local_path : String
  archive : Bool
deriving DecidableEq

/-- The record sftp_fetch exit_json reports (line 136). -/
structure FetchReport where
  src : String
  local_file : String
  skipped : List String
  changed : Bool
deriving DecidableEq

/-- How one sftp_fetch invocation ends: a normal exit_json, or a crash by
an uncaught exception. -/
inductive FetchOutcome where
  | exited (r : FetchReport)
  | crashed (e : Err)
deriving DecidableEq

/-- sftp_fetch.py lines 114-124 (inside the with-block): the skip/transfer
decision, returning the skipped list and the changed flag. -/
def fetchDecision (rfs : List RemoteEntry) (lfs : LocalFS) (src lf : String) :
    Except Err (List String × Bool) :=
  if isfile lfs lf then
    match statRemote rfs src with
    | none => Except.error Err.noSuchFile
    | some e =>
      if localMtime lfs lf == some e.st_mtime then Except.ok ([src], false)
      else Except.ok ([], true)
  else Except.ok ([], true)

/-- sftp_fetch.py lines 127-134: the transfer and the optional archive
rename, parameterized by whether the SFTP session is still open at that
point (operations on a closed session raise). The rename sits in a
try/except IOError: pass, so its failure is swallowed and the remote
filesystem is left as it was. -/
def fetch_transfer_archive (sessionOpen : Bool) (p : FetchParams) (lf : String)
    (rfs : List RemoteEntry) (lfs : LocalFS) : Except Err (List RemoteEntry × LocalFS) :=
  match (if sessionOpen then sftp_get_op rfs p.src lfs lf else Except.error Err.sessionClosed) with
  | Except.error er => Except.error er
  | Except.ok lfs2 =>
    if p.archive then
      match (if sessionOpen then
              sftp_rename rfs p.src ((splitPath p.src).1 ++ "/Archive/" ++ (splitPath p.src).2)
            else Except.error Err.sessionClosed) with
      | Except.error _ => Except.ok (rfs, lfs2)
      | Except.ok rfs2 => Except.ok (rfs2, lfs2)
    else Except.ok (rfs, lfs2)

/-- sftp_fetch.py main: the decision runs inside the with-block; the
with-block then exits (closing the session); lines 126-134 run after it,
so the transfer block executes with the session closed — sessionOpen is
false there, exactly as in the source's indentation. -/
def fetch_main (checkMode : Bool) (p : FetchParams) (rfs : List RemoteEntry) (lfs : LocalFS) :
    FetchOutcome × List RemoteEntry × LocalFS :=
  let lf := p.local_path ++ basenameStr p.src
  match fetchDecision rfs lfs p.src lf with
  | Except.error e => (FetchOutcome.crashed e, rfs, lfs)
  | Except.ok (skipped, changed) =>
    if changed && !checkMode then
      match fetch_transfer_archive false p lf rfs lfs with
      | Except.error e => (FetchOutcome.crashed e, rfs, lfs)
      | Except.ok (rfs2, lfs2) => (FetchOutcome.exited ⟨p.src, lf, skipped, changed⟩, rfs2, lfs2)
    else (FetchOutcome.exited ⟨p.src, lf, skipped, changed⟩, rfs, lfs)

/- ---------------------------------------------------------------------
   Auxiliary definitions for the statements.
   --------------------------------------------------------------------- -/

/-- Erase file and entry contents, keeping every piece of metadata the
decision logic could read (paths, node kinds, mtimes). -/
def stripNode : LNode → LNode
  | LNode.file m _ => LNode.file m ""
  | LNode.dir => LNode.dir

/-- The local filesystem with contents erased. -/
def stripL (lfs : LocalFS) : LocalFS :=
  lfs.map (fun pn => (pn.1, stripNode pn.2))

/-- A remote entry with content erased. -/
def stripEntry (e : RemoteEntry) : RemoteEntry :=
  { e with content := "" }

/-- The remote listing with contents erased. -/
def stripR (rfs : List RemoteEntry) : List RemoteEntry :=
  rfs.map stripEntry

/-- The base names of the listing entries matching the pattern, in listing
order. -/
def matchedNames (pat : String) (rfs : List RemoteEntry) : List String :=
  (rfs.filter (fun e => fnmatch e.filename pat)).map (fun e => e.filename)

/- ---------------------------------------------------------------------
   Helper lemmas.
   --------------------------------------------------------------------- -/

theorem string_append_left_cancel (p a b : String) (h : p ++ a = p ++ b) : a = b := by
  have hd := congrArg String.data h
  simp only [String.data_append] at hd
  have h2 : a.data = b.data := List.append_cancel_left hd
  cases a
  cases b
  exact congrArg String.mk h2

theorem find?_filter_ne (lfs : List (String × LNode)) (p q : String) (hpq : p ≠ q) :
    (lfs.filter (fun pn => pn.1 != q)).find? (fun pn => pn.1 == p)
      = lfs.find? (fun pn => pn.1 == p) := by
  induction lfs with
  | nil => rfl
  | cons hd tl ih =>
    by_cases h1 : hd.1 = p
    · have hq : (hd.1 != q) = true := by simp [h1, hpq]
      simp [List.filter_cons, hq, List.find?_cons, h1, hpq]
    · by_cases h2 : hd.1 = q
      · have hqp : (q == p) = false := by
          refine beq_eq_false_iff_ne.mpr ?_
          intro hc
          exact h1 (h2.trans hc)
        simp [List.filter_cons, h2, List.find?_cons, h1, ih, hqp]
      · simp [List.filter_cons, h2, List.find?_cons, h1, ih]

theorem lookupFS_setFile (lfs : LocalFS) (q : String) (m : Nat) (c : String) (p : String) :
    lookupFS (setFile lfs q m c) p
      = if p = q then some (LNode.file m c) else lookupFS lfs p := by
  by_cases hpq : p = q
  · subst hpq
    simp [lookupFS, setFile, List.find?_cons]
  · have hqp : (q == p) = false := beq_eq_false_iff_ne.mpr (Ne.symm hpq)
    simp [lookupFS, setFile, List.find?_cons, hqp, hpq, find?_filter_ne lfs p q hpq]

theorem statRemote_of_nodup (L : List RemoteEntry)
    (hn : (L.map (fun e => e.filename)).Nodup) (e : RemoteEntry) (he : e ∈ L) :
    statRemote L e.filename = some e := by
  induction L with
  | nil => cases he
  | cons hd tl ih =>
    rcases List.mem_cons.mp he with rfl | he2
    · simp [statRemote, List.find?_cons]
    · have hne : (hd.filename == e.filename) = false := by
        have h1 : hd.filename ∉ tl.map (fun x => x.filename) :=
          (List.nodup_cons.mp hn).1
        have h2 : e.filename ∈ tl.map (fun x => x.filename) :=
          List.mem_map.mpr ⟨e, he2, rfl⟩
        simp only [beq_eq_false_iff_ne, ne_eq]
        intro hc
        exact h1 (hc ▸ h2)
      have ih2 := ih (List.nodup_cons.mp hn).2 he2
      simp [statRemote, List.find?_cons, hne]
      simpa [statRemote] using ih2

theorem processFile_inv (pat lp : String) (del : Bool) (e : RemoteEntry)
    (rfs : List RemoteEntry) (lfs : LocalFS) (oc : FileOutcome)
    (rfs1 : List RemoteEntry) (lfs1 : LocalFS)
    (h : processFile pat lp del e rfs lfs = Except.ok (oc, rfs1, lfs1)) :
    (oc = FileOutcome.notCandidate ∧ fnmatch e.filename pat = false ∧ rfs1 = rfs ∧ lfs1 = lfs)
    ∨ (oc = FileOutcome.skippedFile ∧ fnmatch e.filename pat = true
        ∧ skipCheck rfs lfs e.filename (lp ++ e.filename) = Except.ok true
        ∧ rfs1 = rfs ∧ lfs1 = lfs)
    ∨ (oc = FileOutcome.transferred ∧ fnmatch e.filename pat = true
        ∧ skipCheck rfs lfs e.filename (lp ++ e.filename) = Except.ok false
        ∧ sftp_get_op rfs e.filename lfs (lp ++ e.filename) = Except.ok lfs1
        ∧ (if del then sftp_remove rfs e.filename else Except.ok rfs) = Except.ok rfs1) := by
  unfold processFile at h
  by_cases hf : fnmatch e.filename pat = true
  · rw [if_pos hf] at h
    cases hsk : skipCheck rfs lfs e.filename (lp ++ e.filename) with
    | error er => rw [hsk] at h; simp at h
    | ok b =>
      rw [hsk] at h
      cases b with
      | true =>
        simp only [Except.ok.injEq, Prod.mk.injEq] at h
        obtain ⟨h1, h2, h3⟩ := h
        exact Or.inr (Or.inl ⟨h1.symm, hf, rfl, h2.symm, h3.symm⟩)
      | false =>
        cases hget : sftp_get_op rfs e.filename lfs (lp ++ e.filename) with
        | error er => rw [hget] at h; simp at h
        | ok lfs2 =>
          rw [hget] at h
          cases hdel : (if del then sftp_remove rfs e.filename else Except.ok rfs) with
          | error er => rw [hdel] at h; simp at h
          | ok rfs2 =>
            rw [hdel] at h
            simp only [Except.ok.injEq, Prod.mk.injEq] at h
            obtain ⟨h1, h2, h3⟩ := h
            subst h2
            subst h3
            exact Or.inr (Or.inr ⟨h1.symm, hf, rfl, rfl, rfl⟩)
  · have hf2 : fnmatch e.filename pat = false := by
      revert hf
      cases fnmatch e.filename pat <;> simp
    rw [if_neg hf] at h
    simp only [Except.ok.injEq, Prod.mk.injEq] at h
    obtain ⟨h1, h2, h3⟩ := h
    exact Or.inl ⟨h1.symm, hf2, h2.symm, h3.symm⟩

theorem getLoop_ok_spec (pat lp : String) (del : Bool) (L : List RemoteEntry) :
    ∀ (rfs0 : List RemoteEntry) (lfs0 : LocalFS) (o : LoopOut),
      getLoop pat lp del L rfs0 lfs0 = Except.ok o →
      o.remote_files = matchedNames pat L
      ∧ o.files_proc.Sublist o.remote_files
      ∧ o.files_skipped.Sublist o.remote_files
      ∧ (∀ n, o.files_proc.count n + o.files_skipped.count n = o.remote_files.count n)
      ∧ (o.changed = true ↔ o.files_proc ≠ []) := by
  induction L with
  | nil =>
    intro rfs0 lfs0 o h
    simp only [getLoop, Except.ok.injEq] at h
    subst h
    simp [matchedNames]
  | cons e rest ih =>
    intro rfs0 lfs0 o h
    simp only [getLoop] at h
    cases hp : processFile pat lp del e rfs0 lfs0 with
    | error er => rw [hp] at h; simp at h
    | ok trip =>
      obtain ⟨oc, rfs1, lfs1⟩ := trip
      rw [hp] at h
      dsimp only at h
      cases hr : getLoop pat lp del rest rfs1 lfs1 with
      | error er => rw [hr] at h; simp at h
      | ok o2 =>
        rw [hr] at h
        dsimp only at h
        obtain ⟨ih1, ih2, ih3, ih4, ih5⟩ := ih rfs1 lfs1 o2 hr
        rcases processFile_inv pat lp del e rfs0 lfs0 oc rfs1 lfs1 hp with
          ⟨hoc, hf, _, _⟩ | ⟨hoc, hf, _, _, _⟩ | ⟨hoc, hf, _, _, _⟩
        · subst hoc
          dsimp only at h
          simp only [Except.ok.injEq] at h
          subst h
          refine ⟨?_, ih2, ih3, ih4, ih5⟩
          simp [matchedNames, List.filter_cons, hf, ih1]
        · subst hoc
          dsimp only at h
          simp only [Except.ok.injEq] at h
          subst h
          refine ⟨?_, ?_, ?_, ?_, ?_⟩
          · simp [matchedNames, List.filter_cons, hf]
            exact ih1
          · exact List.Sublist.cons e.filename ih2
          · exact List.Sublist.cons₂ e.filename ih3
          · intro n
            simp only [List.count_cons]
            have := ih4 n
            omega
          · simpa using ih5
        · subst hoc
          dsimp only at h
          simp only [Except.ok.injEq] at h
          subst h
          refine ⟨?_, ?_, ?_, ?_, ?_⟩
          · simp [matchedNames, List.filter_cons, hf]
            exact ih1
          · exact List.Sublist.cons₂ e.filename ih2
          · exact List.Sublist.cons e.filename ih3
          · intro n
            simp only [List.count_cons]
            have := ih4 n
            omega
          · simp

theorem getLoop_rfs_frame (pat lp : String) (L : List RemoteEntry) :
    ∀ (rfs0 : List RemoteEntry) (lfs0 : LocalFS) (o : LoopOut),
      getLoop pat lp false L rfs0 lfs0 = Except.ok o → o.rfs = rfs0 := by
  induction L with
  | nil =>
    intro rfs0 lfs0 o h
    simp only [getLoop, Except.ok.injEq] at h
    subst h
    rfl
  | cons e rest ih =>
    intro rfs0 lfs0 o h
    simp only [getLoop] at h
    cases hp : processFile pat lp false e rfs0 lfs0 with
    | error er => rw [hp] at h; simp at h
    | ok trip =>
      obtain ⟨oc, rfs1, lfs1⟩ := trip
      rw [hp] at h
      dsimp only at h
      cases hr : getLoop pat lp false rest rfs1 lfs1 with
      | error er => rw [hr] at h; simp at h
      | ok o2 =>
        rw [hr] at h
        dsimp only at h
        have hrfs1 : rfs1 = rfs0 := by
          rcases processFile_inv pat lp false e rfs0 lfs0 oc rfs1 lfs1 hp with
            ⟨_, _, h1, _⟩ | ⟨_, _, _, h1, _⟩ | ⟨_, _, _, _, h1⟩
          · exact h1
          · exact h1
          · simp only [if_neg Bool.false_ne_true, Except.ok.injEq] at h1
            exact h1.symm
        have h2 := ih rfs1 lfs1 o2 hr
        cases oc with
        | notCandidate =>
          dsimp only at h
          simp only [Except.ok.injEq] at h
          subst h
          exact h2.trans hrfs1
        | skippedFile =>
          dsimp only at h
          simp only [Except.ok.injEq] at h
          subst h
          exact h2.trans hrfs1
        | transferred =>
          dsimp only at h
          simp only [Except.ok.injEq] at h
          subst h
          exact h2.trans hrfs1

theorem getLoop_lfs_frame (pat lp : String) (del : Bool) (L : List RemoteEntry) :
    ∀ (rfs0 : List RemoteEntry) (lfs0 : LocalFS) (o : LoopOut) (p : String),
      getLoop pat lp del L rfs0 lfs0 = Except.ok o →
      (∀ e ∈ L, fnmatch e.filename pat = true → p ≠ lp ++ e.filename) →
      lookupFS o.lfs p = lookupFS lfs0 p := by
  induction L with
  | nil =>
    intro rfs0 lfs0 o p h _
    simp only [getLoop, Except.ok.injEq] at h
    subst h
    rfl
  | cons e rest ih =>
    intro rfs0 lfs0 o p h hp2
    simp only [getLoop] at h
    cases hp : processFile pat lp del e rfs0 lfs0 with
    | error er => rw [hp] at h; simp at h
    | ok trip =>
      obtain ⟨oc, rfs1, lfs1⟩ := trip
      rw [hp] at h
      dsimp only at h
      cases hr : getLoop pat lp del rest rfs1 lfs1 with
      | error er => rw [hr] at h; simp at h
      | ok o2 =>
        rw [hr] at h
        dsimp only at h
        have hrest : lookupFS o2.lfs p = lookupFS lfs1 p :=
          ih rfs1 lfs1 o2 p hr (fun x hx hfx => hp2 x (List.mem_cons_of_mem e hx) hfx)
        have hstep : lookupFS lfs1 p = lookupFS lfs0 p := by
          rcases processFile_inv pat lp del e rfs0 lfs0 oc rfs1 lfs1 hp with
            ⟨_, _, _, h1⟩ | ⟨_, _, _, _, h1⟩ | ⟨_, hf, _, hget, _⟩
          · rw [h1]
          · rw [h1]
          · have hne : p ≠ lp ++ e.filename := hp2 e (List.mem_cons_self e rest) hf
            unfold sftp_get_op at hget
            cases hst : statRemote rfs0 e.filename with
            | none => rw [hst] at hget; simp at hget
            | some ent =>
              rw [hst] at hget
              dsimp only at hget
              by_cases hd : ent.isDir = true
              · rw [if_pos hd] at hget; simp at hget
              · rw [if_neg hd] at hget
                simp only [Except.ok.injEq] at hget
                subst hget
                rw [lookupFS_setFile]
                rw [if_neg hne]
        have hfin : o.lfs = o2.lfs := by
          cases oc with
          | notCandidate =>
            dsimp only at h
            simp only [Except.ok.injEq] at h
            subst h
            rfl
          | skippedFile =>
            dsimp only at h
            simp only [Except.ok.injEq] at h
            subst h
            rfl
          | transferred =>
            dsimp only at h
            simp only [Except.ok.injEq] at h
            subst h
            rfl
        rw [hfin, hrest, hstep]

theorem skipCheck_true_inv (rfs : List RemoteEntry) (lfs : LocalFS) (name lf : String)
    (e : RemoteEntry) (hst : statRemote rfs name = some e)
    (h : skipCheck rfs lfs name lf = Except.ok true) :
    ∃ c, lookupFS lfs lf = some (LNode.file e.st_mtime c) := by
  unfold skipCheck at h
  by_cases hif : isfile lfs lf = true
  · rw [if_pos hif, hst] at h
    dsimp only at h
    simp only [Except.ok.injEq] at h
    have hmt : localMtime lfs lf = some e.st_mtime := by
      have := beq_iff_eq.mp h
      exact this
    unfold localMtime at hmt
    cases hl : lookupFS lfs lf with
    | none => rw [hl] at hmt; simp at hmt
    | some nd =>
      rw [hl] at hmt
      cases nd with
      | dir => simp at hmt
      | file m c =>
        dsimp only at hmt
        simp only [Option.some.injEq] at hmt
        exact ⟨c, by rw [hmt]⟩
  · rw [if_neg hif] at h
    simp at h

theorem skipCheck_of_synced (rfs : List RemoteEntry) (lfs : LocalFS) (name lf : String)
    (e : RemoteEntry) (c : String) (hst : statRemote rfs name = some e)
    (hl : lookupFS lfs lf = some (LNode.file e.st_mtime c)) :
    skipCheck rfs lfs name lf = Except.ok true := by
  have hif : isfile lfs lf = true := by
    unfold isfile
    rw [hl]
  unfold skipCheck
  rw [if_pos hif, hst]
  dsimp only
  have hmt : localMtime lfs lf = some e.st_mtime := by
    unfold localMtime
    rw [hl]
  rw [hmt]
  simp

theorem matchedNames_cons_pos (pat : String) (e : RemoteEntry) (rest : List RemoteEntry)
    (hf : fnmatch e.filename pat = true) :
    matchedNames pat (e :: rest) = e.filename :: matchedNames pat rest := by
  simp [matchedNames, List.filter_cons, hf]

theorem matchedNames_cons_neg (pat : String) (e : RemoteEntry) (rest : List RemoteEntry)
    (hf : fnmatch e.filename pat = false) :
    matchedNames pat (e :: rest) = matchedNames pat rest := by
  simp [matchedNames, List.filter_cons, hf]

theorem nodup_head_path_ne (lp : String) (e0 x : RemoteEntry) (rest : List RemoteEntry)
    (hnd : ((e0 :: rest).map (fun e => e.filename)).Nodup) (hx : x ∈ rest) :
    lp ++ e0.filename ≠ lp ++ x.filename := by
  intro heq
  have h1 : e0.filename = x.filename := string_append_left_cancel lp _ _ heq
  have h4 : (∀ y ∈ rest, ¬y.filename = e0.filename)
      ∧ (rest.map (fun e => e.filename)).Nodup := by
    simpa using hnd
  exact (h4.1 x hx) h1.symm

theorem getLoop_synced (pat lp : String) (L : List RemoteEntry) :
    ∀ (rfs0 : List RemoteEntry) (lfs0 : LocalFS) (o : LoopOut),
      (∀ e ∈ L, statRemote rfs0 e.filename = some e) →
      ((L.map (fun e => e.filename)).Nodup) →
      getLoop pat lp false L rfs0 lfs0 = Except.ok o →
      ∀ e ∈ L, fnmatch e.filename pat = true →
        ∃ c, lookupFS o.lfs (lp ++ e.filename) = some (LNode.file e.st_mtime c) := by
  induction L with
  | nil =>
    intro rfs0 lfs0 o _ _ _ e he
    cases he
  | cons e0 rest ih =>
    intro rfs0 lfs0 o hstat hnd h e he hfe
    simp only [getLoop] at h
    cases hp : processFile pat lp false e0 rfs0 lfs0 with
    | error er => rw [hp] at h; simp at h
    | ok trip =>
      obtain ⟨oc, rfs1, lfs1⟩ := trip
      rw [hp] at h
      dsimp only at h
      cases hr : getLoop pat lp false rest rfs1 lfs1 with
      | error er => rw [hr] at h; simp at h
      | ok o2 =>
        rw [hr] at h
        dsimp only at h
        have hrfs1 : rfs1 = rfs0 := by
          rcases processFile_inv pat lp false e0 rfs0 lfs0 oc rfs1 lfs1 hp with
            ⟨_, _, h1, _⟩ | ⟨_, _, _, h1, _⟩ | ⟨_, _, _, _, h1⟩
          · exact h1
          · exact h1
          · simp only [if_neg Bool.false_ne_true, Except.ok.injEq] at h1
            exact h1.symm
        have hfin : o.lfs = o2.lfs := by
          cases oc with
          | notCandidate =>
            dsimp only at h
            simp only [Except.ok.injEq] at h
            subst h
            rfl
          | skippedFile =>
            dsimp only at h
            simp only [Except.ok.injEq] at h
            subst h
            rfl
          | transferred =>
            dsimp only at h
            simp only [Except.ok.injEq] at h
            subst h
            rfl
        rcases List.mem_cons.mp he with rfl | he2
        · -- the head entry itself
          have hne : ∀ x ∈ rest, fnmatch x.filename pat = true →
              (lp ++ e.filename) ≠ lp ++ x.filename :=
            fun x hx _ => nodup_head_path_ne lp e x rest hnd hx
          have hframe : lookupFS o2.lfs (lp ++ e.filename) = lookupFS lfs1 (lp ++ e.filename) :=
            getLoop_lfs_frame pat lp false rest rfs1 lfs1 o2 (lp ++ e.filename) hr hne
          rcases processFile_inv pat lp false e rfs0 lfs0 oc rfs1 lfs1 hp with
            ⟨_, hf, _, _⟩ | ⟨_, _, hsk, _, hlfs1⟩ | ⟨_, _, _, hget, _⟩
          · rw [hf] at hfe
            cases hfe
          · obtain ⟨c, hc⟩ := skipCheck_true_inv rfs0 lfs0 e.filename (lp ++ e.filename) e
              (hstat e (List.mem_cons_self e rest)) hsk
            refine ⟨c, ?_⟩
            rw [hfin, hframe, hlfs1, hc]
          · unfold sftp_get_op at hget
            rw [hstat e (List.mem_cons_self e rest)] at hget
            dsimp only at hget
            by_cases hd : e.isDir = true
            · rw [if_pos hd] at hget
              simp at hget
            · rw [if_neg hd] at hget
              simp only [Except.ok.injEq] at hget
              refine ⟨e.content, ?_⟩
              rw [hfin, hframe, ← hget, lookupFS_setFile]
              simp
        · -- an entry of the tail
          have hstat2 : ∀ x ∈ rest, statRemote rfs1 x.filename = some x := by
            rw [hrfs1]
            exact fun x hx => hstat x (List.mem_cons_of_mem e0 hx)
          have hnd2 : (rest.map (fun x => x.filename)).Nodup :=
            (List.nodup_cons.mp (by simpa using hnd)).2
          obtain ⟨c, hc⟩ := ih rfs1 lfs1 o2 hstat2 hnd2 hr e he2 hfe
          exact ⟨c, by rw [hfin, hc]⟩

theorem getLoop_all_skip (pat lp : String) (L : List RemoteEntry) :
    ∀ (rfs0 : List RemoteEntry) (lfs0 : LocalFS),
      (∀ e ∈ L, statRemote rfs0 e.filename = some e) →
      (∀ e ∈ L, fnmatch e.filename pat = true →
        ∃ c, lookupFS lfs0 (lp ++ e.filename) = some (LNode.file e.st_mtime c)) →
      getLoop pat lp false L rfs0 lfs0
        = Except.ok ⟨matchedNames pat L, [], matchedNames pat L, false, rfs0, lfs0⟩ := by
  induction L with
  | nil =>
    intro rfs0 lfs0 _ _
    simp [getLoop, matchedNames]
  | cons e rest ih =>
    intro rfs0 lfs0 hstat hsync
    have hrest := ih rfs0 lfs0
      (fun x hx => hstat x (List.mem_cons_of_mem e hx))
      (fun x hx hfx => hsync x (List.mem_cons_of_mem e hx) hfx)
    by_cases hf : fnmatch e.filename pat = true
    · have hpf : processFile pat lp false e rfs0 lfs0
          = Except.ok (FileOutcome.skippedFile, rfs0, lfs0) := by
        obtain ⟨c, hc⟩ := hsync e (List.mem_cons_self e rest) hf
        have hsk := skipCheck_of_synced rfs0 lfs0 e.filename (lp ++ e.filename) e c
          (hstat e (List.mem_cons_self e rest)) hc
        unfold processFile
        rw [if_pos hf, hsk]
      simp only [getLoop]
      rw [hpf]
      dsimp only
      rw [hrest]
      dsimp only
      rw [matchedNames_cons_pos pat e rest hf]
    · have hf2 : fnmatch e.filename pat = false := by
        revert hf
        cases fnmatch e.filename pat <;> simp
      have hpf : processFile pat lp false e rfs0 lfs0
          = Except.ok (FileOutcome.notCandidate, rfs0, lfs0) := by
        unfold processFile
        rw [if_neg hf]
      simp only [getLoop]
      rw [hpf]
      dsimp only
      rw [hrest]
      dsimp only
      rw [matchedNames_cons_neg pat e rest hf2]

theorem lookupFS_stripL (lfs : LocalFS) (p : String) :
    lookupFS (stripL lfs) p = (lookupFS lfs p).map stripNode := by
  induction lfs with
  | nil => rfl
  | cons hd tl ih =>
    by_cases h1 : hd.1 = p
    · simp [lookupFS, stripL, List.find?_cons, h1]
    · have h2 : (hd.1 == p) = false := beq_eq_false_iff_ne.mpr h1
      simp only [lookupFS, stripL, List.map_cons, List.find?_cons, h2] at ih ⊢
      exact ih

theorem statRemote_stripR (rfs : List RemoteEntry) (name : String) :
    statRemote (stripR rfs) name = (statRemote rfs name).map stripEntry := by
  induction rfs with
  | nil => rfl
  | cons hd tl ih =>
    by_cases h1 : hd.filename = name
    · simp [statRemote, stripR, List.find?_cons, stripEntry, h1]
    · have h2 : (hd.filename == name) = false := beq_eq_false_iff_ne.mpr h1
      simp only [statRemote, stripR, List.map_cons, List.find?_cons, stripEntry, h2] at ih ⊢
      exact ih

theorem stripNode_eq_cases (x y : LNode) (h : stripNode x = stripNode y) :
    (∃ m cx cy, x = LNode.file m cx ∧ y = LNode.file m cy)
    ∨ (x = LNode.dir ∧ y = LNode.dir) := by
  cases x with
  | file m c =>
    cases y with
    | file m2 c2 =>
      simp only [stripNode, LNode.file.injEq] at h
      exact Or.inl ⟨m, c, c2, rfl, by rw [h.1]⟩
    | dir => simp [stripNode] at h
  | dir =>
    cases y with
    | file m2 c2 => simp [stripNode] at h
    | dir => exact Or.inr ⟨rfl, rfl⟩

theorem skipCheck_content_blind (rfs rfs2 : List RemoteEntry) (lfs lfs2 : LocalFS)
    (name lf : String) (hl : stripL lfs2 = stripL lfs) (hr2 : stripR rfs2 = stripR rfs) :
    skipCheck rfs2 lfs2 name lf = skipCheck rfs lfs name lf := by
  have hlk : (lookupFS lfs2 lf).map stripNode = (lookupFS lfs lf).map stripNode := by
    rw [← lookupFS_stripL, ← lookupFS_stripL, hl]
  have hst : (statRemote rfs2 name).map stripEntry = (statRemote rfs name).map stripEntry := by
    rw [← statRemote_stripR, ← statRemote_stripR, hr2]
  have hif : isfile lfs2 lf = isfile lfs lf := by
    unfold isfile
    cases h2 : lookupFS lfs2 lf with
    | none =>
      cases h3 : lookupFS lfs lf with
      | none => rfl
      | some nd => rw [h2, h3] at hlk; simp at hlk
    | some nd2 =>
      cases h3 : lookupFS lfs lf with
      | none => rw [h2, h3] at hlk; simp at hlk
      | some nd =>
        rw [h2, h3] at hlk
        simp only [Option.map_some', Option.some.injEq] at hlk
        rcases stripNode_eq_cases nd2 nd hlk with ⟨m, cx, cy, rfl, rfl⟩ | ⟨rfl, rfl⟩ <;> rfl
  have hmt : localMtime lfs2 lf = localMtime lfs lf := by
    unfold localMtime
    cases h2 : lookupFS lfs2 lf with
    | none =>
      cases h3 : lookupFS lfs lf with
      | none => rfl
      | some nd => rw [h2, h3] at hlk; simp at hlk
    | some nd2 =>
      cases h3 : lookupFS lfs lf with
      | none => rw [h2, h3] at hlk; simp at hlk
      | some nd =>
        rw [h2, h3] at hlk
        simp only [Option.map_some', Option.some.injEq] at hlk
        rcases stripNode_eq_cases nd2 nd hlk with ⟨m, cx, cy, rfl, rfl⟩ | ⟨rfl, rfl⟩ <;> rfl
  unfold skipCheck
  rw [hif, hmt]
  cases h4 : statRemote rfs2 name with
  | none =>
    cases h5 : statRemote rfs name with
    | none => rfl
    | some e => rw [h4, h5] at hst; simp at hst
  | some e2 =>
    cases h5 : statRemote rfs name with
    | none => rw [h4, h5] at hst; simp at hst
    | some e =>
      rw [h4, h5] at hst
      simp only [Option.map_some', Option.some.injEq] at hst
      have hs : e2.st_mtime = e.st_mtime := by
        have h6 := congrArg (fun x => x.st_mtime) hst
        simpa [stripEntry] using h6
      dsimp only
      rw [hs]

theorem findLoop_spec (pat : String) (L : List RemoteEntry) :
    (findLoop pat L).1 = matchedNames pat L
    ∧ ((findLoop pat L).2 = true ↔ (findLoop pat L).1 ≠ []) := by
  induction L with
  | nil => simp [findLoop, matchedNames]
  | cons e rest ih =>
    by_cases hf : fnmatch e.filename pat = true
    · simp only [findLoop, hf, if_true]
      refine ⟨?_, ?_⟩
      · rw [matchedNames_cons_pos pat e rest hf, ih.1]
      · simp
    · have hf2 : fnmatch e.filename pat = false := by
        revert hf
        cases fnmatch e.filename pat <;> simp
      simp only [findLoop, hf2]
      refine ⟨?_, ?_⟩
      · simpa [matchedNames_cons_neg pat e rest hf2] using ih.1
      · simpa using ih.2

theorem fetchDecision_changed_iff (rfs : List RemoteEntry) (lfs : LocalFS) (src lf : String)
    (s : List String) (c : Bool) (h : fetchDecision rfs lfs src lf = Except.ok (s, c)) :
    (c = true ↔ s = []) := by
  unfold fetchDecision at h
  by_cases hif : isfile lfs lf = true
  · rw [if_pos hif] at h
    cases hst : statRemote rfs src with
    | none => rw [hst] at h; simp at h
    | some e =>
      rw [hst] at h
      dsimp only at h
      by_cases hm : (localMtime lfs lf == some e.st_mtime) = true
      · rw [if_pos hm] at h
        simp only [Except.ok.injEq, Prod.mk.injEq] at h
        obtain ⟨h1, h2⟩ := h
        subst h1
        subst h2
        simp
      · rw [if_neg hm] at h
        simp only [Except.ok.injEq, Prod.mk.injEq] at h
        obtain ⟨h1, h2⟩ := h
        subst h1
        subst h2
        simp
  · rw [if_neg hif] at h
    simp only [Except.ok.injEq, Prod.mk.injEq] at h
    obtain ⟨h1, h2⟩ := h
    subst h1
    subst h2
    simp

theorem sftp_get_files_inv (p : GetParams) (L : List RemoteEntry) (lfs : LocalFS)
    (res : GetResult) (rfs2 : List RemoteEntry) (lfs2 : LocalFS)
    (h : sftp_get_files p L lfs = Except.ok (res, rfs2, lfs2)) :
    ∃ o : LoopOut, getLoop p.pattern p.local_path p.delete L L lfs = Except.ok o
      ∧ res = ⟨o.changed, p.pattern, o.remote_files, o.files_proc.length, o.files_proc,
          o.files_skipped, p.path, p.local_path⟩ := by
  unfold sftp_get_files at h
  cases hg : getLoop p.pattern p.local_path p.delete L L lfs with
  | error er => rw [hg] at h; simp at h
  | ok o =>
    rw [hg] at h
    dsimp only at h
    simp only [Except.ok.injEq, Prod.mk.injEq] at h
    exact ⟨o, rfl, h.1.symm⟩

theorem mem_matchedNames (pat : String) (L : List RemoteEntry) (n : String) :
    n ∈ matchedNames pat L ↔ ∃ e ∈ L, e.filename = n ∧ fnmatch n pat = true := by
  simp only [matchedNames, List.mem_map, List.mem_filter]
  constructor
  · rintro ⟨e, ⟨heL, hef⟩, rfl⟩
    exact ⟨e, heL, rfl, hef⟩
  · rintro ⟨e, heL, rfl, hef⟩
    exact ⟨e, ⟨heL, hef⟩, rfl⟩

/- ---------------------------------------------------------------------
   Claim theorems.
   --------------------------------------------------------------------- -/

/-- C1: for a remote file (statRemote finds e) and its expected local path,
the sftp_get skip condition (line 124) holds, i.e. the decision is Skip,
iff a regular file exists at the local path and its whole-second mtime
equals the remote st_mtime; in every other case it is Transfer (ok false);
and the decision reads no content: it is invariant under changing local or
remote file contents while keeping all metadata. -/
theorem sync_decision_characterization (rfs : List RemoteEntry) (lfs : LocalFS)
    (name lf : String) (e : RemoteEntry) (h : statRemote rfs name = some e) :
    (skipCheck rfs lfs name lf = Except.ok true
      ↔ (isfile lfs lf = true ∧ localMtime lfs lf = some e.st_mtime))
    ∧ (skipCheck rfs lfs name lf = Except.ok false
      ↔ ¬(isfile lfs lf = true ∧ localMtime lfs lf = some e.st_mtime))
    ∧ (∀ (rfs2 : List RemoteEntry) (lfs2 : LocalFS),
        stripR rfs2 = stripR rfs → stripL lfs2 = stripL lfs →
        skipCheck rfs2 lfs2 name lf = skipCheck rfs lfs name lf) := by
  have hev : skipCheck rfs lfs name lf
      = Except.ok (isfile lfs lf && (localMtime lfs lf == some e.st_mtime)) := by
    unfold skipCheck
    by_cases hif : isfile lfs lf = true
    · rw [if_pos hif, h]
      dsimp only
      rw [hif]
      simp
    · rw [if_neg hif]
      have hf : isfile lfs lf = false := by
        revert hif
        cases isfile lfs lf <;> simp
      rw [hf]
      simp
  refine ⟨?_, ?_, ?_⟩
  · rw [hev]
    constructor
    · intro h2
      simp only [Except.ok.injEq] at h2
      have h3 := Bool.and_eq_true_iff.mp h2
      exact ⟨h3.1, beq_iff_eq.mp h3.2⟩
    · rintro ⟨h3, h4⟩
      rw [h3, h4]
      simp
  · rw [hev]
    constructor
    · intro h2
      simp only [Except.ok.injEq] at h2
      rintro ⟨h3, h4⟩
      rw [h3, h4] at h2
      simp at h2
    · intro h2
      simp only [Except.ok.injEq]
      cases hif : isfile lfs lf with
      | false => simp
      | true =>
        have h5 : ¬(localMtime lfs lf = some e.st_mtime) := fun hc => h2 ⟨hif, hc⟩
        have h6 : (localMtime lfs lf == some e.st_mtime) = false :=
          beq_eq_false_iff_ne.mpr h5
        rw [h6]
        simp
  · exact fun rfs2 lfs2 hr hl => skipCheck_content_blind rfs rfs2 lfs lfs2 name lf hl hr

/-- Witness for C1 at a concrete synced state. -/
theorem sync_decision_characterization_witness :
    (skipCheck [⟨"a.csv", 5, "x", false⟩] [("/l/a.csv", LNode.file 5 "x")] "a.csv" "/l/a.csv"
        = Except.ok true
      ↔ (isfile [("/l/a.csv", LNode.file 5 "x")] "/l/a.csv" = true
          ∧ localMtime [("/l/a.csv", LNode.file 5 "x")] "/l/a.csv" = some 5)) :=
  (sync_decision_characterization [⟨"a.csv", 5, "x", false⟩] [("/l/a.csv", LNode.file 5 "x")]
    "a.csv" "/l/a.csv" ⟨"a.csv", 5, "x", false⟩ rfl).1

/-- C2: an error-free batch run with delete=false (the unchanged-remote
setting) leaves every matched candidate's local copy stamped with the
remote mtime (preserve_mtime), so running the same batch again over the
resulting local filesystem skips every candidate and reports changed=false
with processed empty. Listing filenames are assumed distinct, as in a real
directory listing. -/
theorem sync_idempotent (pat lp : String) (L : List RemoteEntry) (lfs : LocalFS) (o : LoopOut)
    (hnd : (L.map (fun e => e.filename)).Nodup)
    (h1 : getLoop pat lp false L L lfs = Except.ok o) :
    getLoop pat lp false L L o.lfs
      = Except.ok ⟨o.remote_files, [], o.remote_files, false, L, o.lfs⟩ := by
  have hstat : ∀ e ∈ L, statRemote L e.filename = some e :=
    fun e he => statRemote_of_nodup L hnd e he
  have hsync := getLoop_synced pat lp L L lfs o hstat hnd h1
  have hrf : o.remote_files = matchedNames pat L :=
    (getLoop_ok_spec pat lp false L L lfs o h1).1
  rw [hrf]
  exact getLoop_all_skip pat lp L L o.lfs hstat hsync

/-- Witness for C2: a transfer run followed by a full-skip rerun. -/
theorem sync_idempotent_witness :
    getLoop "*" "/l/" false [⟨"a.csv", 5, "x", false⟩] [⟨"a.csv", 5, "x", false⟩]
      [("/l/a.csv", LNode.file 5 "x")]
      = Except.ok ⟨["a.csv"], [], ["a.csv"], false, [⟨"a.csv", 5, "x", false⟩],
          [("/l/a.csv", LNode.file 5 "x")]⟩ :=
  sync_idempotent "*" "/l/" [⟨"a.csv", 5, "x", false⟩] []
    ⟨["a.csv"], ["a.csv"], [], true, [⟨"a.csv", 5, "x", false⟩],
      [("/l/a.csv", LNode.file 5 "x")]⟩
    (by decide) rfl

/-- C3 counterexample: a find-only run whose pattern matches one file
transfers nothing yet reports changed=true (sftp_find.py line 106 sets
changed on every match), so "changed iff at least one Transfer" fails. -/
theorem find_run_changed_cex :
    sftp_find_files "/data" "*" [⟨"a.csv", 5, "x", false⟩]
      = ⟨true, "*", "/data", ["a.csv"]⟩ := rfl

/-- C3 amended: in the batch (sftp_get) and single-target (sftp_fetch)
modes the changed flag is true iff at least one file was classified
Transfer; in find-only mode, however, changed is true iff at least one
file matched the pattern, although a find run transfers nothing. -/
theorem changed_iff_transfer_amended :
    (∀ (p : GetParams) (L : List RemoteEntry) (lfs : LocalFS) (res : GetResult)
        (rfs2 : List RemoteEntry) (lfs2 : LocalFS),
        sftp_get_files p L lfs = Except.ok (res, rfs2, lfs2) →
        (res.changed = true ↔ res.processed ≠ []))
    ∧ (∀ (path pat : String) (R : List RemoteEntry),
        ((sftp_find_files path pat R).changed = true
          ↔ (sftp_find_files path pat R).files_found ≠ []))
    ∧ (∀ (ck : Bool) (p : FetchParams) (rfs : List RemoteEntry) (lfs : LocalFS)
        (r : FetchReport) (rfs2 : List RemoteEntry) (lfs2 : LocalFS),
        fetch_main ck p rfs lfs = (FetchOutcome.exited r, rfs2, lfs2) →
        (r.changed = true ↔ r.skipped = [])) := by
  refine ⟨?_, ?_, ?_⟩
  · intro p L lfs res rfs2 lfs2 h
    obtain ⟨o, hg, hres⟩ := sftp_get_files_inv p L lfs res rfs2 lfs2 h
    subst hres
    exact (getLoop_ok_spec p.pattern p.local_path p.delete L L lfs o hg).2.2.2.2
  · intro path pat R
    exact (findLoop_spec pat R).2
  · intro ck p rfs lfs r rfs2 lfs2 h
    unfold fetch_main at h
    dsimp only at h
    cases hd : fetchDecision rfs lfs p.src (p.local_path ++ basenameStr p.src) with
    | error e => rw [hd] at h; simp at h
    | ok sc =>
      obtain ⟨s, c⟩ := sc
      rw [hd] at h
      dsimp only at h
      by_cases hb : (c && !ck) = true
      · rw [if_pos hb] at h
        cases hta : fetch_transfer_archive false p (p.local_path ++ basenameStr p.src) rfs lfs with
        | error e => rw [hta] at h; simp at h
        | ok pr =>
          obtain ⟨rfs3, lfs3⟩ := pr
          rw [hta] at h
          dsimp only at h
          simp only [Prod.mk.injEq, FetchOutcome.exited.injEq] at h
          obtain ⟨h1, _, _⟩ := h
          subst h1
          exact fetchDecision_changed_iff rfs lfs p.src (p.local_path ++ basenameStr p.src) s c hd
      · rw [if_neg hb] at h
        simp only [Prod.mk.injEq, FetchOutcome.exited.injEq] at h
        obtain ⟨h1, _, _⟩ := h
        subst h1
        exact fetchDecision_changed_iff rfs lfs p.src (p.local_path ++ basenameStr p.src) s c hd

/-- Witness for C3's amended statement at a concrete transfer run. -/
theorem changed_iff_transfer_amended_witness :
    (GetResult.changed ⟨true, "*", ["a.csv"], 1, ["a.csv"], [], "/data", "/l/"⟩ = true
      ↔ GetResult.processed ⟨true, "*", ["a.csv"], 1, ["a.csv"], [], "/data", "/l/"⟩ ≠ []) :=
  changed_iff_transfer_amended.1 ⟨"/data", "*", "/l/", false⟩ [⟨"a.csv", 5, "x", false⟩] []
    ⟨true, "*", ["a.csv"], 1, ["a.csv"], [], "/data", "/l/"⟩ [⟨"a.csv", 5, "x", false⟩]
    [("/l/a.csv", LNode.file 5 "x")] rfl

/-- C4 (code_bug): whenever the single-target decision is Transfer and
check mode is off, sftp_fetch issues sftp.get after the with-block has
already closed the session (lines 126-134 sit outside the with), so the
run crashes with a closed-session error and neither filesystem changes. -/
theorem fetch_transfer_on_closed_session (p : FetchParams) (rfs : List RemoteEntry)
    (lfs : LocalFS) (s : List String)
    (h : fetchDecision rfs lfs p.src (p.local_path ++ basenameStr p.src) = Except.ok (s, true)) :
    fetch_main false p rfs lfs = (FetchOutcome.crashed Err.sessionClosed, rfs, lfs) := by
  unfold fetch_main
  dsimp only
  rw [h]
  dsimp only
  simp [fetch_transfer_archive]

/-- Witness for C4: fetching /report.txt with no local copy crashes. -/
theorem fetch_transfer_on_closed_session_witness :
    fetch_main false ⟨"/report.txt", "/l/", true⟩ [⟨"/report.txt", 100, "data", false⟩] []
      = (FetchOutcome.crashed Err.sessionClosed, [⟨"/report.txt", 100, "data", false⟩], []) :=
  fetch_transfer_on_closed_session ⟨"/report.txt", "/l/", true⟩
    [⟨"/report.txt", 100, "data", false⟩] [] [] rfl

/-- C5 counterexample: against the same state (remote a.csv, empty local
dir), a real sftp_get run reports processed=[a.csv] but a check-mode run
exits with the initial result, whose processed set is empty — the decision
sets differ, refuting dry-run equivalence for the batch module. -/
theorem dry_run_empty_result_cex :
    get_run_module false ⟨"/data", "*", "/l/", false⟩ [⟨"a.csv", 5, "x", false⟩] []
      = Except.ok (⟨true, "*", ["a.csv"], 1, ["a.csv"], [], "/data", "/l/"⟩,
          [⟨"a.csv", 5, "x", false⟩], [("/l/a.csv", LNode.file 5 "x")])
    ∧ get_run_module true ⟨"/data", "*", "/l/", false⟩ [⟨"a.csv", 5, "x", false⟩] []
      = Except.ok (initialGetResult, [⟨"a.csv", 5, "x", false⟩], [])
    ∧ initialGetResult.processed = [] :=
  ⟨rfl, rfl, rfl⟩

/-- C5 amended: check mode never mutates either filesystem, but only
sftp_fetch computes the real decision set in check mode; sftp_get and
sftp_find exit immediately with their initial empty results, so their
check-mode decision sets are empty rather than equal to a real run's. -/
theorem dry_run_amended :
    (∀ (p : GetParams) (rfs : List RemoteEntry) (lfs : LocalFS),
        get_run_module true p rfs lfs = Except.ok (initialGetResult, rfs, lfs))
    ∧ (∀ (path pat : String) (R : List RemoteEntry),
        find_run_module true path pat R = initialFindResult)
    ∧ (∀ (p : FetchParams) (rfs : List RemoteEntry) (lfs : LocalFS) (s : List String) (c : Bool),
        fetchDecision rfs lfs p.src (p.local_path ++ basenameStr p.src) = Except.ok (s, c) →
        fetch_main true p rfs lfs
          = (FetchOutcome.exited ⟨p.src, p.local_path ++ basenameStr p.src, s, c⟩, rfs, lfs)) := by
  refine ⟨?_, ?_, ?_⟩
  · intro p rfs lfs
    rfl
  · intro path pat R
    rfl
  · intro p rfs lfs s c h
    unfold fetch_main
    dsimp only
    rw [h]
    dsimp only
    simp

/-- Witness for C5's amended statement: a check-mode fetch reports the
transfer decision without touching either filesystem. -/
theorem dry_run_amended_witness :
    fetch_main true ⟨"/report.txt", "/l/", true⟩ [⟨"/report.txt", 100, "data", false⟩] []
      = (FetchOutcome.exited ⟨"/report.txt", "/l/" ++ basenameStr "/report.txt", [], true⟩,
          [⟨"/report.txt", 100, "data", false⟩], []) :=
  dry_run_amended.2.2 ⟨"/report.txt", "/l/", true⟩ [⟨"/report.txt", 100, "data", false⟩] []
    [] true rfl

/-- C6 (code_bug): at the archive scenario itself — single-target fetch of
/report.txt with archive=true, a remote that has the file but no /Archive
directory, and an empty local destination — the shipped sftp_fetch crashes
with a closed-session error at sftp.get (lines 127-134 run after the
with-block closed the session) and neither filesystem changes, so the
rename (which, as the second conjunct shows, would indeed fail at this
state for want of the Archive directory) is never attempted: the
swallowed-rename, transfer-succeeded outcome the claim describes is
unreachable, even though the try/except IOError around sftp.rename
matches the claim's intent. -/
theorem archive_scenario_unreachable :
    fetch_main false ⟨"/report.txt", "/l/", true⟩ [⟨"/report.txt", 100, "data", false⟩] []
      = (FetchOutcome.crashed Err.sessionClosed, [⟨"/report.txt", 100, "data", false⟩], [])
    ∧ sftp_rename [⟨"/report.txt", 100, "data", false⟩] "/report.txt"
        ((splitPath "/report.txt").1 ++ "/Archive/" ++ (splitPath "/report.txt").2)
      = Except.error Err.renameNoDir :=
  ⟨rfl, rfl⟩

/-- C7 counterexample: a batch of two candidates where the first transfer
fails (sftp.get on a directory raises) aborts the whole run with an error
— no result is produced and the second candidate f2.txt is never
processed, refuting per-file error isolation. -/
theorem per_file_error_aborts_cex :
    getLoop "*" "/l/" false
      [⟨"dir1", 1, "", true⟩, ⟨"f2.txt", 2, "y", false⟩]
      [⟨"dir1", 1, "", true⟩, ⟨"f2.txt", 2, "y", false⟩] []
      = Except.error Err.getOnDirectory := rfl

/-- C7 amended: batch-mode per-file errors are NOT isolated — the loop has
no per-file error handling, so the first transfer error (and equally a
remote-delete error after a successful transfer) propagates out of the
loop and aborts the whole run, leaving every remaining candidate
unprocessed and producing no result. -/
theorem per_file_error_aborts_batch (pat lp : String) (del : Bool) (e : RemoteEntry)
    (rest rfs : List RemoteEntry) (lfs : LocalFS) (er : Err) :
    (processFile pat lp del e rfs lfs = Except.error er →
      getLoop pat lp del (e :: rest) rfs lfs = Except.error er)
    ∧ (∀ lfs2 : LocalFS, fnmatch e.filename pat = true →
        skipCheck rfs lfs e.filename (lp ++ e.filename) = Except.ok false →
        sftp_get_op rfs e.filename lfs (lp ++ e.filename) = Except.ok lfs2 →
        del = true → sftp_remove rfs e.filename = Except.error er →
        processFile pat lp del e rfs lfs = Except.error er) := by
  constructor
  · intro h
    simp only [getLoop]
    rw [h]
  · intro lfs2 hf hsk hget hdel hrem
    subst hdel
    simp [processFile, hf, hsk, hget, hrem]

/-- Witness for C7's amended statement: one failing candidate kills the
batch even though a healthy candidate follows it. -/
theorem per_file_error_aborts_batch_witness :
    getLoop "*" "/w/" false [⟨"bad", 3, "", true⟩, ⟨"ok.csv", 4, "z", false⟩]
      [⟨"bad", 3, "", true⟩, ⟨"ok.csv", 4, "z", false⟩] []
      = Except.error Err.getOnDirectory :=
  (per_file_error_aborts_batch "*" "/w/" false ⟨"bad", 3, "", true⟩
    [⟨"ok.csv", 4, "z", false⟩] [⟨"bad", 3, "", true⟩, ⟨"ok.csv", 4, "z", false⟩] []
    Err.getOnDirectory).1 rfl

/-- C8 (code_bug): sftp_get.py has no directory filter — a directory entry
in the remote listing whose name matches the pattern is treated as a
transfer candidate, and sftp.get on it raises, erroring the whole run;
directories are not excluded and their presence does error the run. -/
theorem directory_candidate_errors_run :
    fnmatch "subdir" "*" = true
    ∧ getLoop "*" "/l/" false [⟨"subdir", 7, "", true⟩] [⟨"subdir", 7, "", true⟩] []
        = Except.error Err.getOnDirectory :=
  ⟨rfl, rfl⟩

/-- C9: a listing entry is a batch candidate (recorded in remote_files)
iff its base name matches the glob; nothing in processed or skipped has a
non-matching name, and sftp_find's files_found is exactly the matching
names in listing order. -/
theorem pattern_filter_correct (p : GetParams) (L : List RemoteEntry) (lfs : LocalFS)
    (res : GetResult) (rfs2 : List RemoteEntry) (lfs2 : LocalFS)
    (h : sftp_get_files p L lfs = Except.ok (res, rfs2, lfs2)) :
    (∀ n, n ∈ res.remote_files ↔ ∃ e ∈ L, e.filename = n ∧ fnmatch n p.pattern = true)
    ∧ (∀ n, n ∈ res.processed → fnmatch n p.pattern = true)
    ∧ (∀ n, n ∈ res.skipped → fnmatch n p.pattern = true)
    ∧ (∀ (path pat : String) (R : List RemoteEntry),
        (sftp_find_files path pat R).files_found = matchedNames pat R) := by
  obtain ⟨o, hg, hres⟩ := sftp_get_files_inv p L lfs res rfs2 lfs2 h
  subst hres
  obtain ⟨h1, h2, h3, _, _⟩ := getLoop_ok_spec p.pattern p.local_path p.delete L L lfs o hg
  refine ⟨?_, ?_, ?_, ?_⟩
  · intro n
    dsimp only
    rw [h1]
    exact mem_matchedNames p.pattern L n
  · intro n hn
    have hm : n ∈ matchedNames p.pattern L := h1 ▸ h2.subset hn
    obtain ⟨e, _, _, hf⟩ := (mem_matchedNames p.pattern L n).mp hm
    exact hf
  · intro n hn
    have hm : n ∈ matchedNames p.pattern L := h1 ▸ h3.subset hn
    obtain ⟨e, _, _, hf⟩ := (mem_matchedNames p.pattern L n).mp hm
    exact hf
  · intro path pat R
    exact (findLoop_spec pat R).1

/-- Witness for C9 at a concrete run. -/
theorem pattern_filter_correct_witness :
    ("a.csv" ∈ GetResult.remote_files ⟨true, "*", ["a.csv"], 1, ["a.csv"], [], "/data", "/l/"⟩
      ↔ ∃ e ∈ [RemoteEntry.mk "a.csv" 5 "x" false],
          e.filename = "a.csv" ∧ fnmatch "a.csv" "*" = true) :=
  (pattern_filter_correct ⟨"/data", "*", "/l/", false⟩ [⟨"a.csv", 5, "x", false⟩] []
    ⟨true, "*", ["a.csv"], 1, ["a.csv"], [], "/data", "/l/"⟩ [⟨"a.csv", 5, "x", false⟩]
    [("/l/a.csv", LNode.file 5 "x")] rfl).1 "a.csv"

/-- C10: for an error-free batch run, remote_files is exactly the matched
candidates in listing order, processed and skipped are order-preserving
sublists of it that partition it (their counts add up entrywise), and the
reported processed_count equals the length of processed. -/
theorem batch_partition_invariant (p : GetParams) (L : List RemoteEntry) (lfs : LocalFS)
    (res : GetResult) (rfs2 : List RemoteEntry) (lfs2 : LocalFS)
    (h : sftp_get_files p L lfs = Except.ok (res, rfs2, lfs2)) :
    res.remote_files = matchedNames p.pattern L
    ∧ res.processed.Sublist res.remote_files
    ∧ res.skipped.Sublist res.remote_files
    ∧ (∀ n, res.processed.count n + res.skipped.count n = res.remote_files.count n)
    ∧ res.processed_count = res.processed.length := by
  obtain ⟨o, hg, hres⟩ := sftp_get_files_inv p L lfs res rfs2 lfs2 h
  subst hres
  obtain ⟨h1, h2, h3, h4, _⟩ := getLoop_ok_spec p.pattern p.local_path p.delete L L lfs o hg
  exact ⟨h1, h2, h3, h4, rfl⟩

/-- Witness for C10 at a concrete run. -/
theorem batch_partition_invariant_witness :
    GetResult.processed_count ⟨true, "*", ["a.csv"], 1, ["a.csv"], [], "/data", "/l/"⟩
      = (GetResult.processed ⟨true, "*", ["a.csv"], 1, ["a.csv"], [], "/data", "/l/"⟩).length :=
  (batch_partition_invariant ⟨"/data", "*", "/l/", false⟩ [⟨"a.csv", 5, "x", false⟩] []
    ⟨true, "*", ["a.csv"], 1, ["a.csv"], [], "/data", "/l/"⟩ [⟨"a.csv", 5, "x", false⟩]
    [("/l/a.csv", LNode.file 5 "x")] rfl).2.2.2.2
